import Mathlib

/-!
Verification development for the JsonStorage-Viewer-UX single-page tool
(src/src/App.tsx, src/src/types.ts).

The embedding models the JSON data held by the application, the version
reconciliation logic, and the six user-triggered handlers of App.tsx
(fetchJson, updateJson, loadStorage, saveCurrentStorage, deleteStorage,
editStorage) as pure functions from a pre-invocation state snapshot and an
environment (network outcome, confirm-dialog answers, clock reading) to a
post-state plus a list of observable effects (HTTP requests issued,
settings documents written to local storage, toast notifications).

Modelling conventions, each noted at its definition:
- JS `null` held in `currentData` is the `Json.null` value (as in
  `JsonState.currentData : any` which starts as `null`).
- React function-component semantics: inside one handler invocation, every
  read of `state`, `savedStorages`, `activeStorageId`, `isLoading` sees the
  render snapshot taken when the handler was created; `setState` calls only
  determine the post-state.  In particular `saveSettingsToFile` reads the
  snapshot, not the freshly written state.
- A `new URL(...)` parse failure inside a handler's try block lands in the
  same catch as a transport failure; the environment's error outcome covers
  both.
- JSON documents are restricted to strings without characters that
  `JSON.stringify` escapes and numbers that print as integers; none of the
  claims depend on escape sequences or float formatting.
-/

/-- A JSON value, as handled opaquely by the application (`data: any`). -/
inductive Json where
  | null : Json
  | bool (b : Bool) : Json
  | num (n : Int) : Json
  | str (s : String) : Json
  | arr (items : List Json) : Json
  | obj (fields : List (String × Json)) : Json

/-- Wrap a string in double quotes, as `JSON.stringify` does (the model is
restricted to strings that need no escaping). -/
def quoteStr (s : String) : String := "\"" ++ s ++ "\""

mutual

/-- Model of `JSON.stringify` on the `Json` fragment above: the canonical
serialization JavaScript produces, preserving object key order. -/
def Json.stringify : Json → String
  | .null => "null"
  | .bool true => "true"
  | .bool false => "false"
  | .num n => toString n
  | .str s => quoteStr s
  | .arr items => "[" ++ stringifyItems items ++ "]"
  | .obj fields => "\x7b" ++ stringifyFields fields ++ "\x7d"

/-- Comma-separated serialization of array elements. -/
def stringifyItems : List Json → String
  | [] => ""
  | [j] => Json.stringify j
  | j :: rest => Json.stringify j ++ "," ++ stringifyItems rest

/-- Comma-separated serialization of object fields, in field order. -/
def stringifyFields : List (String × Json) → String
  | [] => ""
  | [(k, v)] => quoteStr k ++ ":" ++ Json.stringify v
  | (k, v) :: rest => quoteStr k ++ ":" ++ Json.stringify v ++ "," ++ stringifyFields rest

end

/-- App.tsx lines 93-95: `areJsonEqual = (json1, json2) =>
JSON.stringify(json1) === JSON.stringify(json2)`. -/
def areJsonEqual (json1 json2 : Json) : Bool :=
  Json.stringify json1 == Json.stringify json2

/-- Lexicographic comparison of character lists by codepoint. -/
def charsLe : List Char → List Char → Bool
  | [], _ => true
  | _ :: _, [] => false
  | a :: as, b :: bs =>
    if a.toNat < b.toNat then true
    else if b.toNat < a.toNat then false
    else charsLe as bs

/-- Lexicographic comparison of strings by codepoint. -/
def keyLe (a b : String) : Bool := charsLe a.data b.data

/-- Insert one object field into a key-sorted field list. -/
def insertField (f : String × Json) : List (String × Json) → List (String × Json)
  | [] => [f]
  | g :: gs => if keyLe f.1 g.1 then f :: g :: gs else g :: insertField f gs

/-- Sort object fields by key (insertion sort). -/
def sortFields : List (String × Json) → List (String × Json)
  | [] => []
  | f :: fs => insertField f (sortFields fs)

mutual

/-- Recursively sort the fields of every object inside a JSON value. -/
def canonicalize : Json → Json
  | .obj fields => .obj (sortFields (canonFields fields))
  | .arr items => .arr (canonItems items)
  | .null => .null
  | .bool b => .bool b
  | .num n => .num n
  | .str s => .str s

/-- Canonicalize every element of an array. -/
def canonItems : List Json → List Json
  | [] => []
  | j :: js => canonicalize j :: canonItems js

/-- Canonicalize every field value of an object. -/
def canonFields : List (String × Json) → List (String × Json)
  | [] => []
  | (k, v) :: fs => (k, canonicalize v) :: canonFields fs

end

mutual

/-- Boolean structural equality on JSON values (recursive constructor-wise
comparison, order-sensitive). -/
def Json.beq : Json → Json → Bool
  | .null, .null => true
  | .bool a, .bool b => a == b
  | .num a, .num b => a == b
  | .str a, .str b => a == b
  | .arr xs, .arr ys => beqItems xs ys
  | .obj fs, .obj gs => beqFields fs gs
  | _, _ => false

/-- Elementwise `Json.beq` on array contents. -/
def beqItems : List Json → List Json → Bool
  | [], [] => true
  | x :: xs, y :: ys => Json.beq x y && beqItems xs ys
  | _, _ => false

/-- Elementwise key/value `Json.beq` on object fields. -/
def beqFields : List (String × Json) → List (String × Json) → Bool
  | [], [] => true
  | (k, v) :: fs, (l, w) :: gs => k == l && Json.beq v w && beqFields fs gs
  | _, _ => false

end

/-- Modelled from the spec: the deep structural equality the specification
describes for the Version Reconciler — "value-based (recursive key/value
comparison of the JSON structure, not reference identity, not key order)".
Two values are spec-deep-equal when they agree after recursively sorting
every object's fields by key, which is exactly key-order-insensitive
value comparison.  (No function in src/ computes this; `areJsonEqual` is
the code's actual equality.) -/
def specDeepEqual (a b : Json) : Bool :=
  Json.beq (canonicalize a) (canonicalize b)

example : areJsonEqual (.obj [("a", .num 1)]) (.obj [("a", .num 1)]) = true := by decide

example : areJsonEqual (.obj [("a", .num 1), ("b", .num 2)])
    (.obj [("b", .num 2), ("a", .num 1)]) = false := by decide

example : specDeepEqual (.obj [("a", .num 1), ("b", .num 2)])
    (.obj [("b", .num 2), ("a", .num 1)]) = true := by decide

/-! ## URL handling

App.tsx computes, for a URL string `u`:
- `new URLSearchParams(new URL(u).search).get('apiKey')` — the value of the
  first `apiKey` parameter of the query string (`null` if absent), and
- `u.split('?')[0]` — the prefix of `u` before the first `'?'`, used as the
  request URL.

The model parses at the character-list level.  The query string is the part
of the URL after the first `'?'` that precedes the fragment (the part after
the first `'#'`); parameters are `&`-separated, each split at its first
`'='` (a parameter with no `'='` has value `""`).  Percent-decoding and
`'+'`-to-space translation are not modelled: the development only
instantiates URLs without escapes, where `URLSearchParams` behaves exactly
like this splitting. -/

/-- The prefix of a character list strictly before the first occurrence of
`sep` (the whole list when `sep` does not occur). -/
def takeUntil (sep : Char) : List Char → List Char
  | [] => []
  | c :: cs => if c = sep then [] else c :: takeUntil sep cs

/-- The suffix of a character list strictly after the first occurrence of
`sep`, or `none` when `sep` does not occur. -/
def dropPast (sep : Char) : List Char → Option (List Char)
  | [] => none
  | c :: cs => if c = sep then some cs else dropPast sep cs

theorem dropPast_length {sep : Char} :
    ∀ {l r : List Char}, dropPast sep l = some r → r.length < l.length := by
  intro l
  induction l with
  | nil => intro r h; simp [dropPast] at h
  | cons c cs ih =>
    intro r h
    simp only [dropPast] at h
    split at h
    · cases h; simp
    · exact Nat.lt_trans (ih h) (by simp)

/-- Fuel-driven worker for `splitChar`; each recursive call strictly
shrinks the list (`dropPast_length`), so any fuel above the list length is
enough and the `0` case is never reached from `splitChar`. -/
def splitCharAux (sep : Char) : Nat → List Char → List (List Char)
  | 0, _ => []
  | fuel + 1, l =>
    takeUntil sep l ::
      match dropPast sep l with
      | none => []
      | some rest => splitCharAux sep fuel rest

/-- Split a character list at every occurrence of `sep` (JS
`String.prototype.split` on a one-character separator). -/
def splitChar (sep : Char) (l : List Char) : List (List Char) :=
  splitCharAux sep (l.length + 1) l

/-- Model of `u.split('?')[0]` (App.tsx lines 108, 179, 333): the prefix of
the URL before the first `'?'`. -/
def stripQuery (u : String) : String := ⟨takeUntil '?' u.data⟩

/-- Model of `new URL(u).search` without its leading `'?'`: the query
string, i.e. what follows the first `'?'` of the pre-fragment part
(empty when there is no query). -/
def searchOf (u : String) : List Char :=
  match dropPast '?' (takeUntil '#' u.data) with
  | none => []
  | some q => q

/-- Split one `key=value` segment at its first `'='`; a segment with no
`'='` is a key with empty value, as in `URLSearchParams`. -/
def paramPair (seg : List Char) : List Char × List Char :=
  (takeUntil '=' seg, (dropPast '=' seg).getD [])

/-- Model of `new URLSearchParams(new URL(u).search).get('apiKey')`
(App.tsx lines 106-107, 177-178, 331-332): the value of the first `apiKey`
parameter, or `none` when the parameter is absent. -/
def apiKeyFromUrlOf (u : String) : Option String :=
  (((splitChar '&' (searchOf u)).map paramPair).find?
      (fun p => p.1 = "apiKey".data)).map (fun p => ⟨p.2⟩)

/-- Model of the JS expression `x || y` for `x : string | null`: `null` and
the empty string (both falsy) fall back to `y`. -/
def jsOrElse (x : Option String) (y : String) : String :=
  match x with
  | none => y
  | some s => if s = "" then y else s

example : apiKeyFromUrlOf "https://api.example.com/doc?apiKey=abc" = some "abc" := by decide

example : apiKeyFromUrlOf "https://api.example.com/doc?x=1&apiKey=abc&y=2" = some "abc" := by
  decide

example : apiKeyFromUrlOf "https://api.example.com/doc" = none := by decide

example : apiKeyFromUrlOf "https://api.example.com/doc?apiKey=" = some "" := by decide

example : stripQuery "https://api.example.com/doc?apiKey=abc" = "https://api.example.com/doc" := by
  decide

example : stripQuery "https://api.example.com/doc" = "https://api.example.com/doc" := by decide

/-! ## Data model (types.ts and App.tsx component state) -/

/-- types.ts `JsonVersion`: a timestamped snapshot of a document. -/
structure JsonVersion where
  timestamp : String
  data : Json

/-- App.tsx `SavedStorage` (lines 23-28): a named endpoint shortcut. -/
structure SavedStorage where
  id : String
  name : String
  url : String
  lastAccessed : String

/-- types.ts `versionsByURL`: the per-URL version history, modelled as a
total function; a URL never written maps to `[]`, indistinguishable from an
absent key through the code's only read pattern `versionsByURL[url] || []`. -/
def VersionsMap : Type := String → List JsonVersion

/-- Model of `versionsByURL[url] || []`. -/
def VersionsMap.get (m : VersionsMap) (u : String) : List JsonVersion := m u

/-- Model of the object-spread update `{ ...versionsByURL, [url]: vs }`. -/
def VersionsMap.set (m : VersionsMap) (u : String) (vs : List JsonVersion) : VersionsMap :=
  fun x => if x = u then vs else m x

/-- types.ts `JsonState`: `currentData : any` starts as JS `null`, which the
model represents as `Json.null`. -/
structure JsonState where
  url : String
  currentData : Json
  versionsByURL : VersionsMap
  apiKey : String

/-- The component state of App.tsx that the handlers read and write: the
`JsonState`, the storage registry, the active-storage marker, the loading
flag, and the storage-name / editing-target inputs of the save panel. -/
structure AppState where
  state : JsonState
  savedStorages : List SavedStorage
  activeStorageId : Option String
  isLoading : Bool
  storageName : String
  editingStorage : Option SavedStorage
  showSavedStorages : Bool

/-- JS truthiness of a JSON value (`null`, `false`, `0` and `""` are
falsy), as tested by `state.currentData` in `saveCurrentStorage`. -/
def Json.truthy : Json → Bool
  | .null => false
  | .bool b => b
  | .num n => n != 0
  | .str s => s != ""
  | .arr _ => true
  | .obj _ => true

/-! ## Effects

Observable side effects of one handler invocation: the HTTP requests it
issues through axios, the `settings` documents it writes to local storage,
and the toast notifications it shows (success / error / plain info). -/

inductive HttpMethod where
  | get : HttpMethod
  | put : HttpMethod
deriving DecidableEq

/-- One axios call: request URL, the `apiKey` request parameter, and the
body (`none` for GET). -/
structure Request where
  httpMethod : HttpMethod
  url : String
  apiKey : String
  body : Option Json

/-- The `settings` document written to local storage (App.tsx lines 79-82). -/
structure Settings where
  apiKey : String
  url : String

inductive Toast where
  | success (msg : String) : Toast
  | error (msg : String) : Toast
deriving DecidableEq

structure Effects where
  requests : List Request
  settingsWrites : List Settings
  toasts : List Toast

/-- The empty effect record. -/
def Effects.none : Effects := ⟨[], [], []⟩

/-! ## Shared helpers of the handlers -/

/-- App.tsx lines 78-90 `saveSettingsToFile`: writes `{ apiKey: state.apiKey,
url: state.url }` to local storage.  `state` here is the render snapshot the
calling handler closed over — React state updates scheduled earlier in the
same handler are not visible to it.  The local-storage write is modelled as
always succeeding. -/
def saveSettingsToFile (s : JsonState) : Settings × Toast :=
  (⟨s.apiKey, s.url⟩, .success "Settings saved successfully")

/-- App.tsx lines 120-121, 201-202, 348-349: `currentVersions.length > 0 &&
areJsonEqual(candidate, currentVersions[0].data)`. -/
def isDataUnchanged (currentVersions : List JsonVersion) (candidate : Json) : Bool :=
  match currentVersions with
  | [] => false
  | v0 :: _ => areJsonEqual candidate v0.data

/-- The Version Reconciler: the decision repeated verbatim in `fetchJson`,
`updateJson` and `loadStorage` — keep the history if the candidate equals
the newest version under `areJsonEqual`, otherwise prepend
`{ timestamp: now, data: candidate }`. -/
def reconcile (currentVersions : List JsonVersion) (candidate : Json) (now : String) :
    List JsonVersion :=
  if isDataUnchanged currentVersions candidate then currentVersions
  else ⟨now, candidate⟩ :: currentVersions

/-- `savedStorages.find(storage => storage.url === url)` (App.tsx lines
149, 182): the first saved storage whose `url` field equals `url`. -/
def findMatchingStorage (storages : List SavedStorage) (url : String) : Option SavedStorage :=
  storages.find? (fun storage => storage.url == url)

/-! ## Handlers -/

/-- Environment of one `fetchJson` invocation: the outcome of the GET (the
error case covers transport failures, non-2xx responses, and a `new URL`
parse failure, all of which land in the same catch block) and the clock
reading taken for a new version's timestamp. -/
structure FetchEnv where
  response : Except Unit Json
  now : String

/-- App.tsx lines 97-166 `fetchJson`.  Control flow mirrored from the
source: empty URL → error toast and nothing else; failed GET → error toast,
no state change (the `finally` clears the loading flag); successful GET →
set `currentData`, reconcile the version history of `state.url`, resolve
the apiKey, set the active storage to the first registry entry matching
`state.url` (or `null`), and persist settings (from the snapshot).  Note
there is no `isLoading` guard in this handler. -/
def fetchJson (σ : AppState) (env : FetchEnv) : AppState × Effects :=
  if σ.state.url = "" then
    (σ, ⟨[], [], [.error "Please enter a URL first"]⟩)
  else
    let apiKeyFromUrl := apiKeyFromUrlOf σ.state.url
    let apiUrl := stripQuery σ.state.url
    let req : Request := ⟨.get, apiUrl, jsOrElse apiKeyFromUrl σ.state.apiKey, none⟩
    match env.response with
    | .error _ =>
        ({σ with isLoading := false}, ⟨[req], [], [.error "Failed to fetch JSON"]⟩)
    | .ok data =>
        let currentVersions := σ.state.versionsByURL.get σ.state.url
        let unchanged := isDataUnchanged currentVersions data
        let state' :=
          if unchanged then
            {σ.state with currentData := data,
                          apiKey := jsOrElse apiKeyFromUrl σ.state.apiKey}
          else
            {σ.state with currentData := data,
                          versionsByURL := σ.state.versionsByURL.set σ.state.url
                            (⟨env.now, data⟩ :: currentVersions),
                          apiKey := jsOrElse apiKeyFromUrl σ.state.apiKey}
        let loadToast : Toast :=
          if unchanged then .success "JSON loaded successfully (no changes detected)"
          else .success "JSON loaded successfully"
        let active' := (findMatchingStorage σ.savedStorages σ.state.url).map (fun m => m.id)
        let saved := saveSettingsToFile σ.state
        ({σ with state := state', activeStorageId := active', isLoading := false},
         ⟨[req], [saved.1], [loadToast, saved.2]⟩)

/-- Environment of one `updateJson` invocation: the user's answer to the
mismatch `window.confirm`, the outcome of the PUT, and the clock reading. -/
structure UpdateEnv where
  confirmMismatch : Bool
  putResult : Except Unit Unit
  now : String

/-- The condition of `updateJson`'s active-mismatch guard (App.tsx line
183): `matchingStorage && matchingStorage.id !== activeStorageId`. -/
def mismatchGate (σ : AppState) : Bool :=
  match findMatchingStorage σ.savedStorages σ.state.url with
  | some m => σ.activeStorageId != some m.id
  | none => false

/-- App.tsx lines 168-232 `updateJson`.  Guarded by `isLoading`; warns (and
on decline aborts, resetting only the just-set loading flag) when the URL
matches a registry entry that is not the active one; PUTs the current
document; on success reconciles the history of `state.url` and, when a
matching registry entry exists, makes it the active storage.  In the
no-change case the `setState` call is skipped entirely, so `apiKey` is not
re-resolved there. -/
def updateJson (σ : AppState) (env : UpdateEnv) : AppState × Effects :=
  if σ.isLoading then
    (σ, ⟨[], [], [.error "Please wait for the current operation to complete"]⟩)
  else
    let apiKeyFromUrl := apiKeyFromUrlOf σ.state.url
    let apiUrl := stripQuery σ.state.url
    let matchingStorage := findMatchingStorage σ.savedStorages σ.state.url
    if mismatchGate σ && !env.confirmMismatch then
      ({σ with isLoading := false}, ⟨[], [], []⟩)
    else
      let req : Request :=
        ⟨.put, apiUrl, jsOrElse apiKeyFromUrl σ.state.apiKey, some σ.state.currentData⟩
      match env.putResult with
      | .error _ =>
          ({σ with isLoading := false}, ⟨[req], [], [.error "Failed to update JSON"]⟩)
      | .ok _ =>
          let currentVersions := σ.state.versionsByURL.get σ.state.url
          let unchanged := isDataUnchanged currentVersions σ.state.currentData
          let state' :=
            if unchanged then σ.state
            else
              {σ.state with versionsByURL := σ.state.versionsByURL.set σ.state.url
                              (⟨env.now, σ.state.currentData⟩ :: currentVersions),
                            apiKey := jsOrElse apiKeyFromUrl σ.state.apiKey}
          let active' :=
            match matchingStorage with
            | some m => some m.id
            | none => σ.activeStorageId
          let doneToast : Toast :=
            if unchanged then .success "JSON updated successfully (no changes to version history)"
            else .success "JSON updated successfully"
          ({σ with state := state', activeStorageId := active', isLoading := false},
           ⟨[req], [], [doneToast]⟩)

/-- Environment of one `loadStorage` invocation: outcome of the GET and the
clock reading (used both for a new version's timestamp and the storage's
`lastAccessed` bump). -/
structure LoadEnv where
  response : Except Unit Json
  now : String

/-- App.tsx lines 318-400 `loadStorage`.  Guarded by `isLoading` (silent
return).  Sets the active storage to the loaded entry before fetching; on
failure resets it to `null` (not to its previous value) with an error
toast; on success switches `url`/`currentData` to the loaded endpoint,
reconciles the history of `storage.url`, bumps the entry's `lastAccessed`,
hides the storage panel, and persists settings from the snapshot. -/
def loadStorage (σ : AppState) (storage : SavedStorage) (env : LoadEnv) : AppState × Effects :=
  if σ.isLoading then
    (σ, Effects.none)
  else
    let apiKeyFromUrl := apiKeyFromUrlOf storage.url
    let apiUrl := stripQuery storage.url
    let req : Request := ⟨.get, apiUrl, jsOrElse apiKeyFromUrl σ.state.apiKey, none⟩
    match env.response with
    | .error _ =>
        ({σ with activeStorageId := none, isLoading := false},
         ⟨[req], [], [.error "Failed to load storage data"]⟩)
    | .ok data =>
        let currentVersions := σ.state.versionsByURL.get storage.url
        let unchanged := isDataUnchanged currentVersions data
        let state' :=
          if unchanged then
            {σ.state with url := storage.url, currentData := data,
                          apiKey := jsOrElse apiKeyFromUrl σ.state.apiKey}
          else
            {σ.state with url := storage.url, currentData := data,
                          versionsByURL := σ.state.versionsByURL.set storage.url
                            (⟨env.now, data⟩ :: currentVersions),
                          apiKey := jsOrElse apiKeyFromUrl σ.state.apiKey}
        let loadToast : Toast :=
          if unchanged then .success "JSON loaded successfully (no changes detected)"
          else .success "JSON loaded successfully"
        let storages' := σ.savedStorages.map (fun item =>
          if item.id = storage.id then {item with lastAccessed := env.now} else item)
        let saved := saveSettingsToFile σ.state
        ({σ with state := state', activeStorageId := some storage.id,
                 savedStorages := storages', isLoading := false, showSavedStorages := false},
         ⟨[req], [saved.1], [loadToast, saved.2]⟩)

/-- App.tsx lines 262-316 `saveCurrentStorage`.  Guarded by `isLoading` and
by non-empty URL and storage name.  With an editing target set it renames
that entry and bumps its `lastAccessed` without touching the active marker;
otherwise it appends a new entry (id freshly derived from the clock, passed
here as `newId`) and marks it active only when the registry was empty or
`currentData` is truthy. -/
def saveCurrentStorage (σ : AppState) (now newId : String) : AppState × Effects :=
  if σ.isLoading then
    (σ, ⟨[], [], [.error "Please wait for the current operation to complete"]⟩)
  else if σ.state.url = "" then
    (σ, ⟨[], [], [.error "Please enter a URL first"]⟩)
  else if σ.storageName = "" then
    (σ, ⟨[], [], [.error "Please enter a name for this storage"]⟩)
  else
    match σ.editingStorage with
    | some editing =>
        let storages' := σ.savedStorages.map (fun storage =>
          if storage.id = editing.id then
            {storage with name := σ.storageName, lastAccessed := now}
          else storage)
        ({σ with savedStorages := storages', editingStorage := none, storageName := ""},
         ⟨[], [], [.success "Storage updated successfully"]⟩)
    | none =>
        let newStorage : SavedStorage := ⟨newId, σ.storageName, σ.state.url, now⟩
        let active' :=
          if σ.savedStorages.length = 0 || σ.state.currentData.truthy then some newId
          else σ.activeStorageId
        ({σ with savedStorages := σ.savedStorages ++ [newStorage],
                 activeStorageId := active', storageName := ""},
         ⟨[], [], [.success "Storage saved successfully"]⟩)

/-- App.tsx lines 402-419 `deleteStorage`.  Guarded by `isLoading` (silent
return); deleting the active entry needs an explicit confirmation, a
decline aborts with no change at all; a confirmed (or non-active) deletion
filters the entry out, clearing the active marker first when it pointed at
the deleted id. -/
def deleteStorage (σ : AppState) (id : String) (confirmDelete : Bool) : AppState × Effects :=
  if σ.isLoading then
    (σ, Effects.none)
  else if σ.activeStorageId = some id then
    if !confirmDelete then
      (σ, Effects.none)
    else
      ({σ with activeStorageId := none,
               savedStorages := σ.savedStorages.filter (fun storage => storage.id != id)},
       ⟨[], [], [.success "Storage deleted"]⟩)
  else
    ({σ with savedStorages := σ.savedStorages.filter (fun storage => storage.id != id)},
     ⟨[], [], [.success "Storage deleted"]⟩)

/-- App.tsx lines 421-429 `editStorage`: guarded by `isLoading`; loads the
entry's name into the input and marks it as the editing target. -/
def editStorage (σ : AppState) (storage : SavedStorage) : AppState × Effects :=
  if σ.isLoading then
    (σ, Effects.none)
  else
    ({σ with storageName := storage.name, editingStorage := some storage}, Effects.none)

/-- App.tsx lines 234-246 `handleEditorChange`: replace `currentData` with
the parsed editor contents; an empty or unparseable buffer (`value = none`
here) changes nothing. -/
def handleEditorChange (σ : AppState) (value : Option Json) : AppState :=
  match value with
  | some parsed => {σ with state := {σ.state with currentData := parsed}}
  | none => σ

/-- App.tsx lines 447-461: typing in the URL input replaces `state.url`
(the advisory toasts it may show carry no state change). -/
def urlInputChange (σ : AppState) (v : String) : AppState :=
  {σ with state := {σ.state with url := v}}

/-- App.tsx lines 490-493: typing in the API-key input replaces
`state.apiKey` and calls `saveSettingsToFile` (which reads the snapshot). -/
def apiKeyInputChange (σ : AppState) (v : String) : AppState × Effects :=
  ({σ with state := {σ.state with apiKey := v}},
   ⟨[], [(saveSettingsToFile σ.state).1], [(saveSettingsToFile σ.state).2]⟩)

/-- App.tsx line 511: toggling the saved-storages panel. -/
def toggleSavedStorages (σ : AppState) : AppState :=
  {σ with showSavedStorages := !σ.showSavedStorages}

/-- App.tsx line 534: typing in the storage-name input replaces
`storageName`. -/
def storageNameInputChange (σ : AppState) (v : String) : AppState :=
  {σ with storageName := v}

/-! ## Session transition system

One step is one completed invocation of a state-changing handler.  The
loading flag serializes the asynchronous handlers (claim C8 examines the
guard itself), so a session is a sequence of completed invocations from the
startup state.  `loadStorage` and `editStorage` are invoked by the UI only
with an entry of the current registry list (App.tsx lines 574-645 map over
`savedStorages`), hence the membership premises. -/

/-- The startup state (App.tsx lines 31-68): `settings`, `savedStorages`
and `versionsByURL` are read from local storage; `currentData` is `null`,
`activeStorageId` is `null`, nothing is loading. -/
def initialState (settings : Option Settings) (storages : List SavedStorage)
    (versions : VersionsMap) : AppState :=
  { state :=
      { url := match settings with | some s => s.url | none => ""
        currentData := Json.null
        versionsByURL := versions
        apiKey := match settings with | some s => s.apiKey | none => "" }
    savedStorages := storages
    activeStorageId := none
    isLoading := false
    storageName := ""
    editingStorage := none
    showSavedStorages := false }

/-- One completed handler invocation. -/
inductive Step : AppState → AppState → Prop where
  | fetch (σ : AppState) (env : FetchEnv) : Step σ (fetchJson σ env).1
  | update (σ : AppState) (env : UpdateEnv) : Step σ (updateJson σ env).1
  | load (σ : AppState) (storage : SavedStorage) (env : LoadEnv)
      (hmem : storage ∈ σ.savedStorages) : Step σ (loadStorage σ storage env).1
  | save (σ : AppState) (now newId : String) : Step σ (saveCurrentStorage σ now newId).1
  | delete (σ : AppState) (id : String) (confirmDelete : Bool) :
      Step σ (deleteStorage σ id confirmDelete).1
  | edit (σ : AppState) (storage : SavedStorage) (hmem : storage ∈ σ.savedStorages) :
      Step σ (editStorage σ storage).1
  | editorChange (σ : AppState) (value : Option Json) : Step σ (handleEditorChange σ value)
  | urlChange (σ : AppState) (v : String) : Step σ (urlInputChange σ v)
  | apiKeyChange (σ : AppState) (v : String) : Step σ (apiKeyInputChange σ v).1
  | nameChange (σ : AppState) (v : String) : Step σ (storageNameInputChange σ v)
  | togglePanel (σ : AppState) : Step σ (toggleSavedStorages σ)

/-- States reachable in a session. -/
inductive Reachable : AppState → Prop where
  | init (settings : Option Settings) (storages : List SavedStorage) (versions : VersionsMap) :
      Reachable (initialState settings storages versions)
  | step (σ σ' : AppState) (h : Reachable σ) (hs : Step σ σ') : Reachable σ'

/-! ## Version-history shape lemmas (one per handler) -/

/-- A version list evolves by at most one prepend. -/
def PrependedBy (old new : List JsonVersion) : Prop :=
  new = old ∨ ∃ v, new = v :: old

theorem prependedBy_refl (l : List JsonVersion) : PrependedBy l l := Or.inl rfl

theorem versionsMap_set_get (m : VersionsMap) (u u' : String) (vs : List JsonVersion) :
    (m.set u vs).get u' = if u' = u then vs else m.get u' := rfl

theorem prependedBy_set (m : VersionsMap) (uSet u : String) (v : JsonVersion) :
    PrependedBy (m.get u) ((m.set uSet (v :: m.get uSet)).get u) := by
  unfold VersionsMap.get VersionsMap.set
  split
  · rename_i h; subst h; exact Or.inr ⟨_, rfl⟩
  · exact prependedBy_refl _

theorem fetchJson_versions (σ : AppState) (env : FetchEnv) (u : String) :
    PrependedBy (σ.state.versionsByURL.get u) ((fetchJson σ env).1.state.versionsByURL.get u) := by
  simp only [fetchJson]
  repeat' split
  all_goals first
    | exact prependedBy_refl _
    | exact prependedBy_set _ _ _ _

theorem updateJson_versions (σ : AppState) (env : UpdateEnv) (u : String) :
    PrependedBy (σ.state.versionsByURL.get u) ((updateJson σ env).1.state.versionsByURL.get u) := by
  simp only [updateJson]
  repeat' split
  all_goals first
    | exact prependedBy_refl _
    | exact prependedBy_set _ _ _ _

theorem loadStorage_versions (σ : AppState) (storage : SavedStorage) (env : LoadEnv)
    (u : String) :
    PrependedBy (σ.state.versionsByURL.get u)
      ((loadStorage σ storage env).1.state.versionsByURL.get u) := by
  simp only [loadStorage]
  repeat' split
  all_goals first
    | exact prependedBy_refl _
    | exact prependedBy_set _ _ _ _

theorem saveCurrentStorage_versions (σ : AppState) (now newId : String) (u : String) :
    PrependedBy (σ.state.versionsByURL.get u)
      ((saveCurrentStorage σ now newId).1.state.versionsByURL.get u) := by
  unfold saveCurrentStorage
  repeat' split
  all_goals exact prependedBy_refl _

theorem deleteStorage_versions (σ : AppState) (id : String) (confirmDelete : Bool)
    (u : String) :
    PrependedBy (σ.state.versionsByURL.get u)
      ((deleteStorage σ id confirmDelete).1.state.versionsByURL.get u) := by
  unfold deleteStorage
  repeat' split
  all_goals exact prependedBy_refl _

theorem editStorage_versions (σ : AppState) (storage : SavedStorage) (u : String) :
    PrependedBy (σ.state.versionsByURL.get u)
      ((editStorage σ storage).1.state.versionsByURL.get u) := by
  unfold editStorage
  repeat' split
  all_goals exact prependedBy_refl _

theorem handleEditorChange_versions (σ : AppState) (value : Option Json) (u : String) :
    PrependedBy (σ.state.versionsByURL.get u)
      ((handleEditorChange σ value).state.versionsByURL.get u) := by
  unfold handleEditorChange
  repeat' split
  all_goals exact prependedBy_refl _

/-! ## Active-storage invariant (one preservation lemma per handler) -/

/-- The active-storage marker, when set, names an entry of the registry. -/
def ActiveOK (σ : AppState) : Prop :=
  ∀ a, σ.activeStorageId = some a → ∃ e ∈ σ.savedStorages, e.id = a

theorem fetchJson_activeOK (σ : AppState) (env : FetchEnv) (h : ActiveOK σ) :
    ActiveOK (fetchJson σ env).1 := by
  simp only [fetchJson]
  repeat' split
  all_goals first
    | exact h
    | (intro a ha
       simp only [findMatchingStorage, Option.map_eq_some'] at ha
       obtain ⟨m, hm, rfl⟩ := ha
       exact ⟨m, List.mem_of_find?_eq_some hm, rfl⟩)

theorem updateJson_activeOK (σ : AppState) (env : UpdateEnv) (h : ActiveOK σ) :
    ActiveOK (updateJson σ env).1 := by
  simp only [updateJson]
  repeat' split
  all_goals first
    | exact h
    | (intro a ha
       rename_i m hm
       simp only [findMatchingStorage] at hm
       cases ha
       exact ⟨m, List.mem_of_find?_eq_some hm, rfl⟩)

theorem loadStorage_activeOK (σ : AppState) (storage : SavedStorage) (env : LoadEnv)
    (hmem : storage ∈ σ.savedStorages) (h : ActiveOK σ) :
    ActiveOK (loadStorage σ storage env).1 := by
  simp only [loadStorage]
  repeat' split
  · exact h
  · intro a ha; cases ha
  · intro a ha
    cases ha
    refine ⟨_, List.mem_map_of_mem _ hmem, ?_⟩
    simp
  · intro a ha
    cases ha
    refine ⟨_, List.mem_map_of_mem _ hmem, ?_⟩
    simp

theorem saveCurrentStorage_activeOK (σ : AppState) (now newId : String) (h : ActiveOK σ) :
    ActiveOK (saveCurrentStorage σ now newId).1 := by
  simp only [saveCurrentStorage]
  repeat' split
  · exact h
  · exact h
  · exact h
  · intro a ha
    obtain ⟨e, he, rfl⟩ := h a ha
    exact ⟨_, List.mem_map_of_mem _ he, by simp [apply_ite SavedStorage.id]⟩
  · intro a ha
    cases ha
    exact ⟨⟨newId, σ.storageName, σ.state.url, now⟩,
           List.mem_append_right _ (List.mem_singleton_self _), rfl⟩
  · intro a ha
    obtain ⟨e, he, rfl⟩ := h a ha
    exact ⟨e, List.mem_append_left _ he, rfl⟩

theorem deleteStorage_activeOK (σ : AppState) (id : String) (confirmDelete : Bool)
    (h : ActiveOK σ) : ActiveOK (deleteStorage σ id confirmDelete).1 := by
  simp only [deleteStorage]
  repeat' split
  all_goals first
    | exact h
    | (intro a ha; cases ha)
    | (intro a ha
       rename_i hne
       obtain ⟨e, he, rfl⟩ := h a ha
       refine ⟨e, List.mem_filter.mpr ⟨he, ?_⟩, rfl⟩
       simp only [bne_iff_ne, ne_eq]
       intro hcontra
       exact hne (by rw [ha, hcontra]))

theorem editStorage_activeOK (σ : AppState) (storage : SavedStorage) (h : ActiveOK σ) :
    ActiveOK (editStorage σ storage).1 := by
  simp only [editStorage]
  repeat' split
  all_goals exact h

theorem step_activeOK {σ σ' : AppState} (hs : Step σ σ') (h : ActiveOK σ) : ActiveOK σ' := by
  cases hs with
  | fetch env => exact fetchJson_activeOK σ env h
  | update env => exact updateJson_activeOK σ env h
  | load storage env hmem => exact loadStorage_activeOK σ storage env hmem h
  | save now newId => exact saveCurrentStorage_activeOK σ now newId h
  | delete id confirmDelete => exact deleteStorage_activeOK σ id confirmDelete h
  | edit storage hmem => exact editStorage_activeOK σ storage h
  | editorChange value =>
      cases value with
      | none => exact h
      | some v => exact h
  | urlChange v => exact h
  | apiKeyChange v => exact h
  | nameChange v => exact h
  | togglePanel => exact h

theorem reachable_activeOK {σ : AppState} (h : Reachable σ) : ActiveOK σ := by
  induction h with
  | init settings storages versions => intro a ha; cases ha
  | step σ σ' hr hs ih => exact step_activeOK hs ih

/-! ## Claim theorems -/

/-- Claim C2: for every session step (fetch, update, load-storage, or any
other handler), the version list of every URL `u` after the step is the
list before it with at most one element prepended (`PrependedBy`); in
particular no version entry is ever removed, replaced, or reordered during
a session. -/
theorem history_prepend_only (σ σ' : AppState) (hs : Step σ σ') (u : String) :
    PrependedBy (σ.state.versionsByURL.get u) (σ'.state.versionsByURL.get u) := by
  cases hs with
  | fetch env => exact fetchJson_versions σ env u
  | update env => exact updateJson_versions σ env u
  | load storage env hmem => exact loadStorage_versions σ storage env u
  | save now newId => exact saveCurrentStorage_versions σ now newId u
  | delete id confirmDelete => exact deleteStorage_versions σ id confirmDelete u
  | edit storage hmem => exact editStorage_versions σ storage u
  | editorChange value => exact handleEditorChange_versions σ value u
  | urlChange v => exact prependedBy_refl _
  | apiKeyChange v => exact prependedBy_refl _
  | nameChange v => exact prependedBy_refl _
  | togglePanel => exact prependedBy_refl _

/-- Concrete session state used by several witnesses: settings restored
from local storage, one saved storage, an empty version history. -/
def wStorage : SavedStorage :=
  ⟨"1700000000000", "Prod", "https://api.example.com/doc", "2024-01-01T00:00:00.000Z"⟩

def wState : AppState :=
  initialState (some ⟨"settingsKey", "https://api.example.com/doc"⟩) [wStorage] (fun _ => [])

/-- Witness for C2: a concrete fetch step from `wState`; the history of the
fetched URL gains exactly one entry. -/
theorem history_prepend_only_witness :
    PrependedBy (wState.state.versionsByURL.get "https://api.example.com/doc")
      ((fetchJson wState ⟨.ok (Json.num 1), "t1"⟩).1.state.versionsByURL.get
        "https://api.example.com/doc") :=
  history_prepend_only wState (fetchJson wState ⟨.ok (Json.num 1), "t1"⟩).1
    (Step.fetch wState ⟨.ok (Json.num 1), "t1"⟩) "https://api.example.com/doc"

/-- Claim C6: in every reachable session state, a non-null
`activeStorageId` is the id of an entry of the saved-storages list; and a
confirmed deletion of the entry whose id equals `activeStorageId` (which
can only proceed while not loading) leaves `activeStorageId` equal to
`none`. -/
theorem active_id_valid (σ : AppState) (hr : Reachable σ) (id : String)
    (hload : σ.isLoading = false) (hact : σ.activeStorageId = some id) :
    (∀ a, σ.activeStorageId = some a → ∃ e ∈ σ.savedStorages, e.id = a) ∧
    (deleteStorage σ id true).1.activeStorageId = none := by
  refine ⟨reachable_activeOK hr, ?_⟩
  simp only [deleteStorage, hload, hact]
  simp

/-- A reachable state with a document loaded in the editor and a storage
name typed in: two input steps from `wState`. -/
def wStateNamed : AppState :=
  storageNameInputChange (handleEditorChange wState (some (Json.num 7))) "New"

theorem wStateNamed_reachable : Reachable wStateNamed :=
  Reachable.step _ _
    (Reachable.step _ _
      (Reachable.init (some ⟨"settingsKey", "https://api.example.com/doc"⟩) [wStorage]
        (fun _ => []))
      (Step.editorChange wState (some (Json.num 7))))
    (Step.nameChange (handleEditorChange wState (some (Json.num 7))) "New")

/-- Witness for C6: from `wStateNamed`, save-as-new makes the new entry
active; deleting it with confirmation clears the marker. -/
theorem active_id_valid_witness :
    (∀ a, (saveCurrentStorage wStateNamed "t1" "42").1.activeStorageId = some a →
       ∃ e ∈ (saveCurrentStorage wStateNamed "t1" "42").1.savedStorages, e.id = a) ∧
    (deleteStorage (saveCurrentStorage wStateNamed "t1" "42").1 "42" true).1.activeStorageId =
      none :=
  active_id_valid (saveCurrentStorage wStateNamed "t1" "42").1
    (Reachable.step wStateNamed _ wStateNamed_reachable (Step.save wStateNamed "t1" "42"))
    "42" rfl rfl

/-- Claim C1 (amended): reconciling a candidate document `d` against an
existing history `vs` produces no new version iff `vs` is non-empty and
`d` equals `vs[0].data` under the code's equality `areJsonEqual`
(JSON-serialization equality, which is sensitive to object key order, not
the key-order-insensitive deep equality the claim states); otherwise
exactly one version `{ timestamp := now, data := d }` is prepended and the
remaining entries are unchanged.  The last two conjuncts show that a
successful fetch and a successful gate-passing update apply exactly this
reconciliation to the current URL's history. -/
theorem reconcile_dedup (vs : List JsonVersion) (d : Json) (now : String)
    (σf : AppState) (fenv : FetchEnv) (data : Json) (σu : AppState) (uenv : UpdateEnv)
    (hurl : σf.state.url ≠ "") (hresp : fenv.response = Except.ok data)
    (hload : σu.isLoading = false)
    (hgate : (mismatchGate σu && !uenv.confirmMismatch) = false)
    (hput : uenv.putResult = Except.ok ()) :
    ((reconcile vs d now = vs) ↔
      ∃ v0 rest, vs = v0 :: rest ∧ areJsonEqual d v0.data = true) ∧
    (reconcile vs d now = vs ∨ reconcile vs d now = ⟨now, d⟩ :: vs) ∧
    ((fetchJson σf fenv).1.state.versionsByURL.get σf.state.url =
      reconcile (σf.state.versionsByURL.get σf.state.url) data fenv.now) ∧
    ((updateJson σu uenv).1.state.versionsByURL.get σu.state.url =
      reconcile (σu.state.versionsByURL.get σu.state.url) σu.state.currentData uenv.now) := by
  refine ⟨?_, ?_, ?_, ?_⟩
  · constructor
    · intro hr
      unfold reconcile at hr
      by_cases hc : isDataUnchanged vs d = true
      · unfold isDataUnchanged at hc
        cases vs with
        | nil => cases hc
        | cons v0 rest => exact ⟨v0, rest, rfl, hc⟩
      · rw [if_neg hc] at hr
        exact absurd hr (List.cons_ne_self _ _)
    · rintro ⟨v0, rest, rfl, heq⟩
      simp [reconcile, isDataUnchanged, heq]
  · unfold reconcile
    split
    · exact Or.inl rfl
    · exact Or.inr rfl
  · simp only [fetchJson, hresp]
    rw [if_neg hurl]
    by_cases hu : isDataUnchanged (σf.state.versionsByURL.get σf.state.url) data = true
    · simp [hu, reconcile]
    · simp only [Bool.not_eq_true] at hu
      have hu' : isDataUnchanged (σf.state.versionsByURL σf.state.url) data = false := hu
      simp [hu, hu', reconcile, VersionsMap.get, VersionsMap.set]
  · simp only [updateJson, hload, hgate, hput]
    simp only [Bool.false_eq_true, if_false]
    by_cases hu : isDataUnchanged (σu.state.versionsByURL.get σu.state.url)
        σu.state.currentData = true
    · simp [hu, reconcile]
    · simp only [Bool.not_eq_true] at hu
      have hu' : isDataUnchanged (σu.state.versionsByURL σu.state.url)
          σu.state.currentData = false := hu
      simp [hu, hu', reconcile, VersionsMap.get, VersionsMap.set]

/-- Witness for C1 (amended): instantiated at an empty history and the
concrete session state `wState` (fetch of the number 60, update with no
matching registry mismatch). -/
theorem reconcile_dedup_witness :
    ((reconcile [] (Json.num 5) "t0" = []) ↔
      ∃ v0 rest, ([] : List JsonVersion) = v0 :: rest ∧
        areJsonEqual (Json.num 5) v0.data = true) ∧
    (reconcile [] (Json.num 5) "t0" = [] ∨
      reconcile [] (Json.num 5) "t0" = [⟨"t0", Json.num 5⟩]) ∧
    ((fetchJson wState ⟨.ok (Json.num 60), "t1"⟩).1.state.versionsByURL.get
        wState.state.url =
      reconcile (wState.state.versionsByURL.get wState.state.url) (Json.num 60) "t1") ∧
    ((updateJson wState ⟨true, .ok (), "t2"⟩).1.state.versionsByURL.get wState.state.url =
      reconcile (wState.state.versionsByURL.get wState.state.url)
        wState.state.currentData "t2") :=
  reconcile_dedup [] (Json.num 5) "t0" wState ⟨.ok (Json.num 60), "t1"⟩ (Json.num 60)
    wState ⟨true, .ok (), "t2"⟩ (by decide) rfl rfl (by decide) rfl

/-- Counterexample documents for C1: the same object value with its two
fields listed in opposite orders. -/
def cxDocAB : Json := .obj [("a", .num 1), ("b", .num 2)]

def cxDocBA : Json := .obj [("b", .num 2), ("a", .num 1)]

/-- Session state whose current URL has one stored version holding
`cxDocAB`. -/
def cxKeyOrderState : AppState :=
  initialState (some ⟨"settingsKey", "https://api.example.com/doc"⟩) []
    (fun u => if u = "https://api.example.com/doc" then [⟨"t0", cxDocAB⟩] else [])

/-- Claim C1 as stated is false: `cxDocBA` is deep-equal (key-order
insensitively) to the newest stored version's data `cxDocAB`, yet
reconciling it — and a successful fetch returning it — prepends a new
version instead of leaving the history unchanged. -/
theorem reconcile_keyorder_cx :
    specDeepEqual cxDocBA cxDocAB = true ∧
    cxKeyOrderState.state.versionsByURL.get "https://api.example.com/doc" =
      [⟨"t0", cxDocAB⟩] ∧
    reconcile [⟨"t0", cxDocAB⟩] cxDocBA "t1" ≠ [⟨"t0", cxDocAB⟩] ∧
    (fetchJson cxKeyOrderState ⟨.ok cxDocBA, "t1"⟩).1.state.versionsByURL.get
        "https://api.example.com/doc" =
      [⟨"t1", cxDocBA⟩, ⟨"t0", cxDocAB⟩] := by
  refine ⟨by decide, rfl, ?_, rfl⟩
  intro hcontra
  have hlen := congrArg List.length hcontra
  have hr : reconcile [⟨"t0", cxDocAB⟩] cxDocBA "t1" =
      [⟨"t1", cxDocBA⟩, ⟨"t0", cxDocAB⟩] := rfl
  rw [hr] at hlen
  simp at hlen

/-- Claim C3: when a confirmation gate fires — deleting the entry whose id
equals `activeStorageId`, or invoking update while the current URL matches
a saved entry whose id differs from `activeStorageId` — and the user
declines, the action aborts with no state change at all: no PUT request,
no change to version history, saved storages, `activeStorageId`, current
document or settings, and no notification of any kind. -/
theorem decline_confirmation_aborts (σd : AppState) (id : String)
    (σu : AppState) (uenv : UpdateEnv)
    (hdLoad : σd.isLoading = false) (hdAct : σd.activeStorageId = some id)
    (huLoad : σu.isLoading = false) (huGate : mismatchGate σu = true)
    (huDecline : uenv.confirmMismatch = false) :
    deleteStorage σd id false = (σd, Effects.none) ∧
    updateJson σu uenv = (σu, Effects.none) := by
  constructor
  · simp [deleteStorage, hdLoad, hdAct, Effects.none]
  · simp only [updateJson, huLoad, huGate, huDecline, Bool.not_false, Bool.and_true,
      Bool.false_eq_true, if_false, if_true]
    refine Prod.ext ?_ rfl
    show AppState.mk σu.state σu.savedStorages σu.activeStorageId false σu.storageName
        σu.editingStorage σu.showSavedStorages = σu
    rw [← huLoad]

/-- State with the single saved storage marked active, used as the delete
gate's witness input. -/
def wActiveState : AppState := {wState with activeStorageId := some "1700000000000"}

/-- Witness for C3: declining the delete confirmation on the active entry
and declining the update mismatch warning (current URL matches `wStorage`
while nothing is active) both change nothing and emit nothing. -/
theorem decline_confirmation_aborts_witness :
    deleteStorage wActiveState "1700000000000" false = (wActiveState, Effects.none) ∧
    updateJson wState ⟨false, .ok (), "t2"⟩ = (wState, Effects.none) :=
  decline_confirmation_aborts wActiveState "1700000000000" wState ⟨false, .ok (), "t2"⟩
    rfl rfl rfl (by decide) rfl

/-- Claim C4 (amended): a failed fetch or update surfaces its failure toast
and leaves the whole component state as it was (only the transient loading
flag is cleared); a failed load-storage surfaces its failure toast and
leaves everything unchanged EXCEPT that `activeStorageId` is reset to
`none` (App.tsx line 395), not restored to its previous value. -/
theorem failure_no_partial_mutation (σf : AppState) (fenv : FetchEnv)
    (σu : AppState) (uenv : UpdateEnv) (σl : AppState) (storage : SavedStorage)
    (lenv : LoadEnv)
    (hfUrl : σf.state.url ≠ "") (hfResp : fenv.response = Except.error ())
    (huLoad : σu.isLoading = false)
    (huGate : (mismatchGate σu && !uenv.confirmMismatch) = false)
    (huPut : uenv.putResult = Except.error ())
    (hlLoad : σl.isLoading = false) (hlResp : lenv.response = Except.error ()) :
    (fetchJson σf fenv).1 = {σf with isLoading := false} ∧
    (fetchJson σf fenv).2.toasts = [Toast.error "Failed to fetch JSON"] ∧
    (updateJson σu uenv).1 = {σu with isLoading := false} ∧
    (updateJson σu uenv).2.toasts = [Toast.error "Failed to update JSON"] ∧
    (loadStorage σl storage lenv).1 =
      {σl with activeStorageId := none, isLoading := false} ∧
    (loadStorage σl storage lenv).2.toasts = [Toast.error "Failed to load storage data"] := by
  refine ⟨?_, ?_, ?_, ?_, ?_, ?_⟩
  · simp only [fetchJson, hfResp]; rw [if_neg hfUrl]
  · simp only [fetchJson, hfResp]; rw [if_neg hfUrl]
  · simp only [updateJson, huLoad, huGate, huPut, Bool.false_eq_true, if_false]
  · simp only [updateJson, huLoad, huGate, huPut, Bool.false_eq_true, if_false]
  · simp only [loadStorage, hlLoad, hlResp, Bool.false_eq_true, if_false]
  · simp only [loadStorage, hlLoad, hlResp, Bool.false_eq_true, if_false]

/-- Witness for C4 (amended): failed GET, PUT and load from `wState` (the
mismatch warning answered with yes so that the PUT is attempted). -/
theorem failure_no_partial_mutation_witness :
    (fetchJson wState ⟨.error (), "t1"⟩).1 = {wState with isLoading := false} ∧
    (fetchJson wState ⟨.error (), "t1"⟩).2.toasts = [Toast.error "Failed to fetch JSON"] ∧
    (updateJson wState ⟨true, .error (), "t2"⟩).1 = {wState with isLoading := false} ∧
    (updateJson wState ⟨true, .error (), "t2"⟩).2.toasts =
      [Toast.error "Failed to update JSON"] ∧
    (loadStorage wState wStorage ⟨.error (), "t3"⟩).1 =
      {wState with activeStorageId := none, isLoading := false} ∧
    (loadStorage wState wStorage ⟨.error (), "t3"⟩).2.toasts =
      [Toast.error "Failed to load storage data"] :=
  failure_no_partial_mutation wState ⟨.error (), "t1"⟩ wState ⟨true, .error (), "t2"⟩
    wState wStorage ⟨.error (), "t3"⟩ (by decide) rfl rfl (by decide) rfl rfl rfl

/-- Registry entries for the C4 counterexample. -/
def cxStorage1 : SavedStorage := ⟨"1", "One", "https://api.example.com/one", "t"⟩

def cxStorage2 : SavedStorage := ⟨"2", "Two", "https://api.example.com/two", "t"⟩

/-- State in which entry 1 is the active storage. -/
def cxLoadState : AppState :=
  {initialState (some ⟨"k", "https://api.example.com/one"⟩) [cxStorage1, cxStorage2]
      (fun _ => []) with
    activeStorageId := some "1"}

/-- Claim C4 as stated is false: a failed load of entry 2 while entry 1 is
active leaves `activeStorageId = none`, not its pre-action value
`some "1"` — the in-memory state is not left exactly as it was. -/
theorem load_failure_resets_active_cx :
    cxLoadState.activeStorageId = some "1" ∧
    (loadStorage cxLoadState cxStorage2 ⟨.error (), "t9"⟩).2.toasts =
      [Toast.error "Failed to load storage data"] ∧
    (loadStorage cxLoadState cxStorage2 ⟨.error (), "t9"⟩).1.activeStorageId = none :=
  ⟨rfl, rfl, rfl⟩

theorem takeUntil_not_mem (sep : Char) (l : List Char) : sep ∉ takeUntil sep l := by
  induction l with
  | nil => simp [takeUntil]
  | cons c cs ih =>
    simp only [takeUntil]
    split
    · simp
    · rename_i hne
      intro hmem
      rcases List.mem_cons.mp hmem with h | h
      · exact hne h.symm
      · exact ih h

theorem takeUntil_append (sep : Char) (l1 l2 : List Char) (h : sep ∉ l1) :
    takeUntil sep (l1 ++ sep :: l2) = l1 := by
  induction l1 with
  | nil => simp [takeUntil]
  | cons c cs ih =>
    have hc : c ≠ sep := fun hcs => h (hcs ▸ List.mem_cons_self c cs)
    have hcs : sep ∉ cs := fun hin => h (List.mem_cons_of_mem c hin)
    simp only [List.cons_append, takeUntil, if_neg (fun hcontra => hc hcontra)]
    exact congrArg (List.cons c) (ih hcs)

/-- Claim C7 (amended): both GET and PUT are issued against the URL with
its entire query string stripped (`stripQuery`, the prefix before the
first `'?'`, which itself contains no `'?'`), with the apiKey sent as an
explicit request parameter; a NON-EMPTY apiKey embedded in the URL's query
string takes precedence over the settings key, while an absent — or
empty-valued, by the `||` fallback — embedded key makes the settings key
be sent. -/
theorem api_key_resolution (σ1 : AppState) (fenv1 : FetchEnv) (uenv1 : UpdateEnv)
    (σ2 : AppState) (fenv2 : FetchEnv) (uenv2 : UpdateEnv) (k : String)
    (base q : List Char)
    (h1key : apiKeyFromUrlOf σ1.state.url = some k) (h1ne : k ≠ "")
    (h1url : σ1.state.url ≠ "") (h1load : σ1.isLoading = false)
    (h1gate : (mismatchGate σ1 && !uenv1.confirmMismatch) = false)
    (h2key : apiKeyFromUrlOf σ2.state.url = none)
    (h2url : σ2.state.url ≠ "") (h2load : σ2.isLoading = false)
    (h2gate : (mismatchGate σ2 && !uenv2.confirmMismatch) = false)
    (hdata : σ1.state.url.data = base ++ '?' :: q) (hbase : '?' ∉ base) :
    (fetchJson σ1 fenv1).2.requests =
      [⟨.get, stripQuery σ1.state.url, k, none⟩] ∧
    (updateJson σ1 uenv1).2.requests =
      [⟨.put, stripQuery σ1.state.url, k, some σ1.state.currentData⟩] ∧
    (fetchJson σ2 fenv2).2.requests =
      [⟨.get, stripQuery σ2.state.url, σ2.state.apiKey, none⟩] ∧
    (updateJson σ2 uenv2).2.requests =
      [⟨.put, stripQuery σ2.state.url, σ2.state.apiKey, some σ2.state.currentData⟩] ∧
    (stripQuery σ1.state.url).data = base ∧
    '?' ∉ (stripQuery σ2.state.url).data := by
  refine ⟨?_, ?_, ?_, ?_, ?_, ?_⟩
  · rcases hr : fenv1.response with _ | d <;>
      simp [fetchJson, hr, h1url, h1key, jsOrElse, h1ne]
  · rcases hr : uenv1.putResult with _ | _ <;>
      simp [updateJson, hr, h1load, h1gate, h1key, jsOrElse, h1ne]
  · rcases hr : fenv2.response with _ | d <;>
      simp [fetchJson, hr, h2url, h2key, jsOrElse]
  · rcases hr : uenv2.putResult with _ | _ <;>
      simp [updateJson, hr, h2load, h2gate, h2key, jsOrElse]
  · show (takeUntil '?' σ1.state.url.data) = base
    rw [hdata]
    exact takeUntil_append '?' base q hbase
  · exact takeUntil_not_mem '?' σ2.state.url.data

/-- State whose URL embeds a non-empty `apiKey` parameter differing from
the settings key. -/
def wKeyState : AppState :=
  initialState (some ⟨"fallbackKey", "https://api.example.com/doc?apiKey=urlKey"⟩) []
    (fun _ => [])

/-- Witness for C7 (amended): `wKeyState` embeds `apiKey=urlKey` (sent in
place of the settings key, query stripped); `wState` embeds nothing (the
settings key is sent).  The mismatch gate of `wState` is answered yes so
the PUT goes out. -/
theorem api_key_resolution_witness :
    (fetchJson wKeyState ⟨.ok (Json.num 1), "t1"⟩).2.requests =
      [⟨.get, stripQuery wKeyState.state.url, "urlKey", none⟩] ∧
    (updateJson wKeyState ⟨false, .ok (), "t2"⟩).2.requests =
      [⟨.put, stripQuery wKeyState.state.url, "urlKey", some wKeyState.state.currentData⟩] ∧
    (fetchJson wState ⟨.ok (Json.num 1), "t3"⟩).2.requests =
      [⟨.get, stripQuery wState.state.url, wState.state.apiKey, none⟩] ∧
    (updateJson wState ⟨true, .ok (), "t4"⟩).2.requests =
      [⟨.put, stripQuery wState.state.url, wState.state.apiKey,
        some wState.state.currentData⟩] ∧
    (stripQuery wKeyState.state.url).data = "https://api.example.com/doc".data ∧
    '?' ∉ (stripQuery wState.state.url).data :=
  api_key_resolution wKeyState ⟨.ok (Json.num 1), "t1"⟩ ⟨false, .ok (), "t2"⟩
    wState ⟨.ok (Json.num 1), "t3"⟩ ⟨true, .ok (), "t4"⟩ "urlKey"
    "https://api.example.com/doc".data "apiKey=urlKey".data
    (by decide) (by decide) (by decide) rfl (by decide) (by decide) (by decide) rfl
    (by decide) (by decide) (by decide)

/-- State whose URL carries an empty-valued `apiKey` parameter. -/
def cxEmptyKeyState : AppState :=
  initialState (some ⟨"fallbackKey", "https://api.example.com/doc?apiKey="⟩) []
    (fun _ => [])

/-- Claim C7 as stated is false: `?apiKey=` embeds an apiKey query
parameter (URLSearchParams yields the empty string, not null), yet the
falsy-coalescing `apiKeyFromUrl || state.apiKey` sends the settings key
`"fallbackKey"` instead of the embedded (empty) key. -/
theorem empty_apikey_param_cx :
    apiKeyFromUrlOf cxEmptyKeyState.state.url = some "" ∧
    (fetchJson cxEmptyKeyState ⟨.ok (Json.num 1), "t1"⟩).2.requests =
      [⟨.get, "https://api.example.com/doc", "fallbackKey", none⟩] :=
  ⟨by decide, rfl⟩

/-- Claim C8 (amended): while a request is outstanding (`isLoading` set),
invocations of update, load-storage, save-storage, delete-storage and
edit-storage are rejected or ignored without any state change and without
issuing a request (update and save answer with a please-wait toast, the
others return silently).  The fetch handler, however, carries no such
guard — its re-entrancy is prevented only by the disabled Fetch button,
not by the handler itself (see the counterexample). -/
theorem loading_rejects_actions (σ : AppState) (uenv : UpdateEnv)
    (storage : SavedStorage) (lenv : LoadEnv) (nowS newId id : String)
    (confirmDelete : Bool) (eStorage : SavedStorage)
    (hload : σ.isLoading = true) :
    (updateJson σ uenv).1 = σ ∧ (updateJson σ uenv).2.requests = [] ∧
    (updateJson σ uenv).2.toasts =
      [Toast.error "Please wait for the current operation to complete"] ∧
    loadStorage σ storage lenv = (σ, Effects.none) ∧
    (saveCurrentStorage σ nowS newId).1 = σ ∧
    (saveCurrentStorage σ nowS newId).2.requests = [] ∧
    deleteStorage σ id confirmDelete = (σ, Effects.none) ∧
    editStorage σ eStorage = (σ, Effects.none) := by
  refine ⟨?_, ?_, ?_, ?_, ?_, ?_, ?_, ?_⟩ <;>
    simp [updateJson, loadStorage, saveCurrentStorage, deleteStorage, editStorage, hload]

/-- Witness for C8 (amended): `wState` with the loading flag raised; every
guarded handler leaves it untouched. -/
theorem loading_rejects_actions_witness :
    (updateJson {wState with isLoading := true} ⟨true, .ok (), "t1"⟩).1 =
      {wState with isLoading := true} ∧
    (updateJson {wState with isLoading := true} ⟨true, .ok (), "t1"⟩).2.requests = [] ∧
    (updateJson {wState with isLoading := true} ⟨true, .ok (), "t1"⟩).2.toasts =
      [Toast.error "Please wait for the current operation to complete"] ∧
    loadStorage {wState with isLoading := true} wStorage ⟨.ok (Json.num 1), "t2"⟩ =
      ({wState with isLoading := true}, Effects.none) ∧
    (saveCurrentStorage {wState with isLoading := true} "t3" "42").1 =
      {wState with isLoading := true} ∧
    (saveCurrentStorage {wState with isLoading := true} "t3" "42").2.requests = [] ∧
    deleteStorage {wState with isLoading := true} "1700000000000" true =
      ({wState with isLoading := true}, Effects.none) ∧
    editStorage {wState with isLoading := true} wStorage =
      ({wState with isLoading := true}, Effects.none) :=
  loading_rejects_actions {wState with isLoading := true} ⟨true, .ok (), "t1"⟩
    wStorage ⟨.ok (Json.num 1), "t2"⟩ "t3" "42" "1700000000000" true wStorage rfl

/-- `wState` mid-request: the loading flag is set and a document is
displayed. -/
def cxLoadingState : AppState :=
  {wState with
    isLoading := true
    state := {wState.state with currentData := Json.num 1}}

/-- Claim C8 as stated is false: `fetchJson` has no loading guard (App.tsx
lines 97-103 check only for an empty URL), so invoking it while
`isLoading = true` still issues a GET request and still mutates the state
(`currentData` changes from 1 to 2 and a version is prepended), instead of
being rejected or ignored. -/
theorem fetch_ignores_loading_cx :
    cxLoadingState.isLoading = true ∧
    (fetchJson cxLoadingState ⟨.ok (Json.num 2), "t1"⟩).2.requests ≠ [] ∧
    (fetchJson cxLoadingState ⟨.ok (Json.num 2), "t1"⟩).1.state.currentData = Json.num 2 ∧
    cxLoadingState.state.currentData = Json.num 1 ∧
    ((fetchJson cxLoadingState ⟨.ok (Json.num 2), "t1"⟩).1.state.versionsByURL.get
        cxLoadingState.state.url).length =
      (cxLoadingState.state.versionsByURL.get cxLoadingState.state.url).length + 1 := by
  refine ⟨rfl, ?_, rfl, rfl, rfl⟩
  intro h
  exact List.cons_ne_nil _ _ h

/-- Settings whose stored key differs from the key embedded in the URL:
the C9 failing input. -/
def cxStaleKeyState : AppState :=
  initialState (some ⟨"oldKey", "https://api.example.com/doc?apiKey=urlKey"⟩) []
    (fun _ => [])

/-- Claim C9 evaluated at the failing input (code bug): on a successful
fetch the resolved API key is the URL-embedded `"urlKey"` — it is even
written into `state.apiKey` — but the settings document persisted by
`saveSettingsToFile` carries the pre-fetch snapshot key `"oldKey"`,
because the helper closes over the render snapshot and the React state
update scheduled in the same handler is not yet visible.  The second half
of the claim does hold: a successful update writes no settings document. -/
theorem fetch_persists_stale_settings (σu : AppState) (uenv : UpdateEnv) :
    jsOrElse (apiKeyFromUrlOf cxStaleKeyState.state.url) cxStaleKeyState.state.apiKey =
      "urlKey" ∧
    (fetchJson cxStaleKeyState ⟨.ok (Json.num 1), "t1"⟩).1.state.apiKey = "urlKey" ∧
    (fetchJson cxStaleKeyState ⟨.ok (Json.num 1), "t1"⟩).2.settingsWrites =
      [⟨"oldKey", "https://api.example.com/doc?apiKey=urlKey"⟩] ∧
    (updateJson σu uenv).2.settingsWrites = [] := by
  refine ⟨by decide, rfl, rfl, ?_⟩
  simp only [updateJson]
  repeat' split
  all_goals rfl

/-- Claim C10: a successful fetch or update on URL `u` leaves the version
lists of all other URLs and the whole saved-storages list unchanged; a
successful load-storage leaves other URLs' version lists unchanged and,
among the saved storages, changes only the loaded entry's `lastAccessed`
field — every entry keeps its id, name and url, and entries with a
different id are untouched. -/
theorem frame_effects (σf : AppState) (fenv : FetchEnv) (dataF : Json)
    (σu : AppState) (uenv : UpdateEnv)
    (σl : AppState) (storage : SavedStorage) (lenv : LoadEnv) (dataL : Json)
    (uf uu ul : String)
    (hfUrl : σf.state.url ≠ "") (hfResp : fenv.response = Except.ok dataF)
    (hfOther : uf ≠ σf.state.url)
    (huLoad : σu.isLoading = false)
    (huGate : (mismatchGate σu && !uenv.confirmMismatch) = false)
    (huPut : uenv.putResult = Except.ok ()) (huOther : uu ≠ σu.state.url)
    (hlLoad : σl.isLoading = false) (hlResp : lenv.response = Except.ok dataL)
    (hlOther : ul ≠ storage.url) :
    (fetchJson σf fenv).1.state.versionsByURL.get uf =
      σf.state.versionsByURL.get uf ∧
    (fetchJson σf fenv).1.savedStorages = σf.savedStorages ∧
    (updateJson σu uenv).1.state.versionsByURL.get uu =
      σu.state.versionsByURL.get uu ∧
    (updateJson σu uenv).1.savedStorages = σu.savedStorages ∧
    (loadStorage σl storage lenv).1.state.versionsByURL.get ul =
      σl.state.versionsByURL.get ul ∧
    List.Forall₂
      (fun pre post => post.id = pre.id ∧ post.name = pre.name ∧ post.url = pre.url ∧
        (pre.id ≠ storage.id → post = pre))
      σl.savedStorages (loadStorage σl storage lenv).1.savedStorages := by
  refine ⟨?_, ?_, ?_, ?_, ?_, ?_⟩
  · simp only [fetchJson, hfResp]
    rw [if_neg hfUrl]
    split <;> simp [VersionsMap.get, VersionsMap.set, hfOther]
  · simp only [fetchJson, hfResp]
    rw [if_neg hfUrl]
  · simp only [updateJson, huLoad, huGate, huPut, Bool.false_eq_true, if_false]
    split <;> simp [VersionsMap.get, VersionsMap.set, huOther]
  · simp only [updateJson, huLoad, huGate, huPut, Bool.false_eq_true, if_false]
  · simp only [loadStorage, hlLoad, hlResp, Bool.false_eq_true, if_false]
    split <;> simp [VersionsMap.get, VersionsMap.set, hlOther]
  · simp only [loadStorage, hlLoad, hlResp, Bool.false_eq_true, if_false]
    rw [List.forall₂_map_right_iff]
    rw [List.forall₂_same]
    intro x hx
    by_cases hid : x.id = storage.id <;> simp [hid]

/-- Witness for C10: a fetch, an update (mismatch confirmed) and a load
from `wState`; the history of an unrelated URL and the registry entries
are untouched. -/
theorem frame_effects_witness :
    (fetchJson wState ⟨.ok (Json.num 1), "t1"⟩).1.state.versionsByURL.get
        "https://other.example.com" =
      wState.state.versionsByURL.get "https://other.example.com" ∧
    (fetchJson wState ⟨.ok (Json.num 1), "t1"⟩).1.savedStorages = wState.savedStorages ∧
    (updateJson wState ⟨true, .ok (), "t2"⟩).1.state.versionsByURL.get
        "https://other.example.com" =
      wState.state.versionsByURL.get "https://other.example.com" ∧
    (updateJson wState ⟨true, .ok (), "t2"⟩).1.savedStorages = wState.savedStorages ∧
    (loadStorage wState wStorage ⟨.ok (Json.num 1), "t3"⟩).1.state.versionsByURL.get
        "https://other.example.com" =
      wState.state.versionsByURL.get "https://other.example.com" ∧
    List.Forall₂
      (fun pre post => post.id = pre.id ∧ post.name = pre.name ∧ post.url = pre.url ∧
        (pre.id ≠ wStorage.id → post = pre))
      wState.savedStorages
      (loadStorage wState wStorage ⟨.ok (Json.num 1), "t3"⟩).1.savedStorages :=
  frame_effects wState ⟨.ok (Json.num 1), "t1"⟩ (Json.num 1)
    wState ⟨true, .ok (), "t2"⟩ wState wStorage ⟨.ok (Json.num 1), "t3"⟩ (Json.num 1)
    "https://other.example.com" "https://other.example.com" "https://other.example.com"
    (by decide) rfl (by decide) rfl (by decide) rfl (by decide) rfl rfl (by decide)
